import Mathlib

/-!
Shallow embedding of the Port Allocation & Project Registry Engine
(`src/core/models.py`, `src/core/port_manager.py`,
`src/core/project_registry.py`, `src/core/process_controller.py`).

Python dictionaries (insertion-ordered, unique keys) are embedded as
association lists `List (String × V)`; `d[k] = v` keeps the position of an
existing key and appends a fresh one, matching CPython semantics.  Port
numbers are `Nat`; allocation-map keys are the decimal strings `str(port)`
produced by the code, kept as `String` to match the string-keyed map.
Live TCP probes (`is_port_in_use`), the filesystem checks on project paths
and the external pm2 job list are oracles passed in as functions.
Timestamps are opaque strings supplied by the caller ("now").
-/

namespace DevOrch

/-- Python `k in d` for a dict embedded as an association list. -/
def hasKey (k : String) (d : List (String × String)) : Bool :=
  d.any (fun e => e.1 == k)

/-- Python `d.get(k)`. -/
def dlookup (k : String) (d : List (String × String)) : Option String :=
  (d.find? (fun e => e.1 == k)).map (·.2)

/-- Python `d[k] = v`: replace in place if the key exists, else append. -/
def dinsert (k v : String) (d : List (String × String)) : List (String × String) :=
  if hasKey k d then d.map (fun e => if e.1 == k then (k, v) else e)
  else d ++ [(k, v)]

/-- Python `d.pop(k, None)` / `del d[k]` (keys are unique in a dict, so
removing every pair with that key is the same operation). -/
def dpop (k : String) (d : List (String × String)) : List (String × String) :=
  d.filter (fun e => !(e.1 == k))

/-- Python `int(s)` restricted to plain decimal numerals (the only keys the
allocator ever writes are `str(port)`; signs, whitespace and underscores
accepted by Python `int` are not modelled). -/
def decParse? (s : String) : Option Nat :=
  if s.data ≠ [] ∧ s.data.all Char.isDigit then
    some (s.data.foldl (fun n c => n * 10 + (c.toNat - 48)) 0)
  else none

/-- Python `str.lower()` (ASCII; the names involved are ASCII). -/
def strLower (s : String) : String := ⟨s.data.map Char.toLower⟩

/-- Boolean list-prefix test. -/
def isPrefixB : List Char → List Char → Bool
  | [], _ => true
  | _ :: _, [] => false
  | a :: l1, b :: l2 => a == b && isPrefixB l1 l2

/-- Boolean contiguous-sublist test; the empty needle matches everything. -/
def containsList (needle : List Char) : List Char → Bool
  | [] => needle.isEmpty
  | c :: rest => isPrefixB needle (c :: rest) || containsList needle rest

/-- Python substring test `needle in hay`. -/
def containsSub (needle hay : String) : Bool :=
  containsList needle.data hay.data

/-- Core of `re.match(r'^[a-z][a-z0-9-]*$', name)`: first char a lowercase
letter, the rest lowercase letters, digits or hyphens. -/
def nameCore (l : List Char) : Bool :=
  match l with
  | [] => false
  | c :: rest =>
      (('a' ≤ c) && (c ≤ 'z')) &&
      rest.all (fun d => (('a' ≤ d) && (d ≤ 'z')) || d.isDigit || d == '-')

/-- Embeds `Project.__post_init__` name validation.  Python's `$` also matches just
before a single trailing newline, so `"app\n"` passes; that quirk is kept. -/
def validName (s : String) : Bool :=
  nameCore s.data ||
  (s.data.getLast? == some '\n' && nameCore s.data.dropLast)

/-- Python `str.title()` over ASCII: a letter is uppercased when the previous
character is not a letter, lowercased otherwise. -/
def pyTitle : List Char → Bool → List Char
  | [], _ => []
  | c :: rest, prevCased =>
      (if c.isAlpha then (if prevCased then c.toLower else c.toUpper) else c)
        :: pyTitle rest c.isAlpha

/-- Default display name: `name.replace("-", " ").title()`. -/
def defaultDisplayName (s : String) : String :=
  ⟨pyTitle (s.data.map (fun c => if c == '-' then ' ' else c)) false⟩

/-- Embeds `models.HealthCheck`. -/
structure HealthCheck where
  path : String
  timeout : Nat
deriving DecidableEq

/-- Embeds `models.ServiceConfig`. -/
structure ServiceConfig where
  enabled : Bool
  port : Option Nat
  command : String
  cwd : Option String
  env : List (String × String)
  health_check : Option HealthCheck
deriving DecidableEq

/-- Embeds `models.Project`.  `display_name` stays `Option` because `update_project`
can patch it back to `None` after construction. -/
structure Project where
  name : String
  path : String
  display_name : Option String
  description : Option String
  frontend : Option ServiceConfig
  backend : Option ServiceConfig
  env_vars : List (String × String)
  dependencies : List String
  tags : List String
  created_at : String
  updated_at : String
  notes : Option String
deriving DecidableEq

/-- Embeds `models.PortRange`; the Python field `end` is a Lean keyword and is
embedded as `stop`. -/
structure PortRange where
  start : Nat
  stop : Nat
  reserved : List Nat
deriving DecidableEq

/-- Embeds `models.PortAllocation`; `allocated` maps `str(port)` to project name. -/
structure PortAllocation where
  frontend_range : PortRange
  backend_range : PortRange
  allocated : List (String × String)
deriving DecidableEq

/-- Embeds `models.Settings`. -/
structure Settings where
  auto_generate_env : Bool
  env_file_name : String
  pm2_ecosystem_path : String
  log_retention_days : Nat
  health_check_interval : Nat
  dashboard_port : Nat
  default_tags : List String
deriving DecidableEq

/-- Embeds `models.Metadata`. -/
structure Metadata where
  created_at : String
  last_modified : String
  last_modified_by : String
  total_projects : Nat
  active_projects : Nat
deriving DecidableEq

/-- Embeds `models.ProjectRegistry` — the root aggregate; `projects` is the
name-keyed dict embedded as an association list. -/
structure Registry where
  version : String
  projects : List (String × Project)
  port_allocation : PortAllocation
  settings : Settings
  metadata : Metadata
deriving DecidableEq

/-- Dataclass defaults of `models.PortAllocation`. -/
def defaultPortAllocation : PortAllocation :=
  ⟨⟨3000, 3099, [3000]⟩, ⟨8000, 8099, [8501]⟩, []⟩

/-- Dataclass defaults of `models.Settings`. -/
def defaultSettings : Settings :=
  ⟨true, ".env.local", "./ecosystem.config.js", 7, 60, 8501, ["local"]⟩

/-- Dataclass defaults of `models.ProjectRegistry` (timestamp defaults of
`Metadata` are opaque and embedded as the empty string). -/
def defaultRegistry : Registry :=
  ⟨"1.0.0", [], defaultPortAllocation, defaultSettings, ⟨"", "", "system", 0, 0⟩⟩

/-! ## Port manager (`port_manager.py`), pure core

`inUse` is the oracle for `is_port_in_use` (the live TCP probe of
`localhost:port`): `true` means the connect succeeds. -/

/-- Embeds `PortManager.is_port_reserved`: membership in the reserved list of
EITHER range (the code checks both, not just the searched range's). -/
def is_port_reserved (r : Registry) (port : Nat) : Bool :=
  r.port_allocation.frontend_range.reserved.contains port ||
  r.port_allocation.backend_range.reserved.contains port

/-- The loop body condition of `PortManager.find_available_port`: the port is
kept iff it is not excluded, not reserved, not a key of `allocated` and the
live probe does not succeed. -/
def portOK (inUse : Nat → Bool) (r : Registry) (exclude : List Nat) (port : Nat) : Bool :=
  !(exclude.contains port) && !(is_port_reserved r port) &&
  !(hasKey (toString port) r.port_allocation.allocated) && !(inUse port)

/-- Embeds `PortManager.find_available_port`: first port of
`range(start, end + 1)` passing `portOK`. -/
def find_available_port (inUse : Nat → Bool) (r : Registry)
    (start stop : Nat) (exclude : List Nat) : Option Nat :=
  (List.range' start (stop + 1 - start)).find? (portOK inUse r exclude)

/-- Embeds `PortManager.find_available_frontend_port` (default `exclude=None`). -/
def find_available_frontend_port (inUse : Nat → Bool) (r : Registry) : Option Nat :=
  find_available_port inUse r r.port_allocation.frontend_range.start
    r.port_allocation.frontend_range.stop []

/-- Embeds `PortManager.find_available_backend_port` (default `exclude=None`). -/
def find_available_backend_port (inUse : Nat → Bool) (r : Registry) : Option Nat :=
  find_available_port inUse r r.port_allocation.backend_range.start
    r.port_allocation.backend_range.stop []

/-- The result dict of `allocate_ports`; a component is `some p` exactly when
the corresponding `"frontend"` / `"backend"` key is present. -/
structure PortsResult where
  frontend : Option Nat
  backend : Option Nat
deriving DecidableEq

/-- Helper to update just the allocation map of a registry. -/
def setAlloc (r : Registry) (d : List (String × String)) : Registry :=
  { r with port_allocation := { r.port_allocation with allocated := d } }

/-- Embeds `PortManager.allocate_ports`, acting on the port manager's in-memory
registry.  `.error rb` models the raised `PortExhaustedError`, carrying the
registry after the `except` clause's rollback (`pop` of every provisionally
added port); `.ok` is the state passed to `self.save()`.  The save itself is
total in this embedding (and would trigger the same rollback on failure,
leaving the map equally restored). -/
def allocate_ports (inUse : Nat → Bool) (r : Registry) (project_name : String)
    (need_frontend need_backend : Bool) : Except Registry (PortsResult × Registry) :=
  if need_frontend then
    match find_available_frontend_port inUse r with
    | none => .error r
    | some fe =>
        let r1 := setAlloc r (dinsert (toString fe) project_name r.port_allocation.allocated)
        if need_backend then
          match find_available_backend_port inUse r1 with
          | none => .error (setAlloc r1 (dpop (toString fe) r1.port_allocation.allocated))
          | some be =>
              .ok (⟨some fe, some be⟩,
                setAlloc r1 (dinsert (toString be) project_name r1.port_allocation.allocated))
        else .ok (⟨some fe, none⟩, r1)
  else
    if need_backend then
      match find_available_backend_port inUse r with
      | none => .error r
      | some be =>
          .ok (⟨none, some be⟩,
            setAlloc r (dinsert (toString be) project_name r.port_allocation.allocated))
    else .ok (⟨none, none⟩, r)

/-- Embeds `PortManager.release_ports`: collect the keys whose value is
`project_name`, delete each, return the freed numbers and the new registry.
(`int(port)` on a non-numeral key raises in Python; the freed-number list
here simply drops such keys — the claims settled below only concern the map,
and every key the allocator writes is a numeral.) -/
def release_ports (r : Registry) (project_name : String) : List Nat × Registry :=
  let ks := (r.port_allocation.allocated.filter (fun e => e.2 == project_name)).map (·.1)
  let d := ks.foldl (fun acc k => dpop k acc) r.port_allocation.allocated
  (ks.filterMap decParse?, setAlloc r d)

/-- The dict returned by `PortManager.get_port_status`.  Utilization is kept
as the pair (allocated count, usable total) feeding the percentage; the
float formatting itself is presentation only. -/
structure PortStatusSummary where
  frontend_range : String
  backend_range : String
  used_frontend : List Nat
  used_backend : List Nat
  next_frontend : Option Nat
  next_backend : Option Nat
  util_frontend : Nat × Int
  util_backend : Nat × Int
deriving DecidableEq

/-- Embeds `int(port_str)` over all allocated entries, as performed by the
classification loop of `get_port_status`; `none` models the `ValueError`
raised on a non-numeral key. -/
def portEntriesParsed : List (String × String) → Option (List (Nat × String))
  | [] => some []
  | e :: d =>
      match decParse? e.1, portEntriesParsed d with
      | some n, some l => some ((n, e.2) :: l)
      | _, _ => none

/-- Embeds `fe_total = fe_range.end - fe_range.start + 1 - len(fe_range.reserved)`
(Python int arithmetic, so it can be zero or negative). -/
def rangeTotal (pr : PortRange) : Int :=
  (pr.stop : Int) - (pr.start : Int) + 1 - (pr.reserved.length : Int)

/-- Embeds `PortManager.get_port_status`; `.error ()` models the uncaught
`ValueError` (non-numeral key) or `ZeroDivisionError` (a zero usable-slot
count in the utilization computation). -/
def get_port_status (inUse : Nat → Bool) (r : Registry) : Except Unit PortStatusSummary :=
  let fe := r.port_allocation.frontend_range
  let be := r.port_allocation.backend_range
  match portEntriesParsed r.port_allocation.allocated with
  | none => .error ()
  | some entries =>
      let feAlloc := entries.filterMap
        (fun e => if fe.start ≤ e.1 ∧ e.1 ≤ fe.stop then some e.1 else none)
      let beAlloc := entries.filterMap
        (fun e => if ¬(fe.start ≤ e.1 ∧ e.1 ≤ fe.stop) ∧ be.start ≤ e.1 ∧ e.1 ≤ be.stop
          then some e.1 else none)
      if rangeTotal fe = 0 ∨ rangeTotal be = 0 then .error ()
      else
        .ok ⟨toString fe.start ++ "-" ++ toString fe.stop,
             toString be.start ++ "-" ++ toString be.stop,
             feAlloc.insertionSort (· ≤ ·), beAlloc.insertionSort (· ≤ ·),
             find_available_frontend_port inUse r, find_available_backend_port inUse r,
             (feAlloc.length, rangeTotal fe), (beAlloc.length, rangeTotal be)⟩

/-! ## Status reconciler (`process_controller.py`) -/

/-- Embeds `ProcessController._get_service_status`, reduced to the status string:
`procs` is the oracle mapping a pm2 job name to its reported status string
(`none` = no such job).  Any reported state other than exactly `"online"` or
`"stopped"` maps to `"errored"`. -/
def service_status (procs : String → Option String) (pm2_name : String) : String :=
  match procs pm2_name with
  | none => "not_started"
  | some st => if st == "online" then "online"
      else if st == "stopped" then "stopped" else "errored"

/-- The `statuses` list built by `get_project_status`: one entry per present
and enabled service, frontend first. -/
def project_statuses (procs : String → Option String) (project_name : String)
    (p : Project) : List String :=
  (match p.frontend with
   | some f => if f.enabled then [service_status procs (project_name ++ "-fe")] else []
   | none => []) ++
  (match p.backend with
   | some b => if b.enabled then [service_status procs (project_name ++ "-be")] else []
   | none => [])

/-- The overall-status cascade at the end of
`ProcessController.get_project_status`. -/
def overall_status (statuses : List String) : String :=
  if statuses.isEmpty then "stopped"
  else if statuses.all (fun s => s == "online") then "running"
  else if statuses.all (fun s => s == "stopped" || s == "not_started") then "stopped"
  else if statuses.any (fun s => s == "errored") then "error"
  else "partial"

/-- Embeds `get_project_status`, reduced to the `overall_status` field of the
returned `ProjectStatus`. -/
def get_project_status_overall (procs : String → Option String)
    (project_name : String) (p : Project) : String :=
  overall_status (project_statuses procs project_name p)

/-! ## Project directory (`project_registry.py`), in-memory parts -/

/-- One entry of the `updates` dict passed to `update_project`.  Every listed
constructor is an attribute of the `Project` dataclass (so `hasattr` holds
and `setattr` applies it); `unknownKey` stands for any key that is not an
attribute and is silently skipped. -/
inductive PatchField
  | name (v : String)
  | display_name (v : Option String)
  | description (v : Option String)
  | notes (v : Option String)
  | tags (v : List String)
  | env_vars (v : List (String × String))
  | path (v : String)
  | unknownKey (k : String)
deriving DecidableEq

/-- Embeds `setattr(project, key, value)` for one patch entry. -/
def applyPatch (p : Project) : PatchField → Project
  | .name v => { p with name := v }
  | .display_name v => { p with display_name := v }
  | .description v => { p with description := v }
  | .notes v => { p with notes := v }
  | .tags v => { p with tags := v }
  | .env_vars v => { p with env_vars := v }
  | .path v => { p with path := v }
  | .unknownKey _ => p

/-- Embeds `ProjectRegistry.update_project` (in-memory effect; the subsequent
`self.save(...)` is the persistence step modelled at system level).  The
patched object is the one stored in the dict, so the entry is replaced in
place under the unchanged key. -/
def update_project (r : Registry) (name : String) (updates : List PatchField)
    (now : String) : Except Unit (Project × Registry) :=
  match (r.projects.find? (fun e => e.1 == name)).map (·.2) with
  | none => .error ()
  | some p =>
      let p1 := updates.foldl applyPatch p
      let p2 := { p1 with updated_at := now }
      .ok (p2, { r with projects :=
        if r.projects.any (fun e => e.1 == name) then
          r.projects.map (fun e => if e.1 == name then (name, p2) else e)
        else r.projects ++ [(name, p2)] })

/-- The per-project match predicate of `ProjectRegistry.search_projects`
(the four checks are tried in order; appending on the first hit and
`continue`-ing is the same as filtering on their disjunction). -/
def projectMatches (q : String) (p : Project) : Bool :=
  containsSub q (strLower p.name) ||
  (match p.display_name with
   | some d => !(d == "") && containsSub q (strLower d)
   | none => false) ||
  p.tags.any (fun t => containsSub q (strLower t)) ||
  (match p.description with
   | some d => !(d == "") && containsSub q (strLower d)
   | none => false)

/-- Embeds `ProjectRegistry.search_projects` (`query = query.lower()` first, then a
scan over `projects.values()` in insertion order). -/
def search_projects (r : Registry) (query : String) : List Project :=
  (r.projects.map (·.2)).filter (projectMatches (strLower query))

/-! ## System level: the registry file, the backup directory and the two
independently cached in-memory copies

`ProjectRegistry` (the manager in `project_registry.py`) and the
`PortManager` it owns each hold their own lazily loaded `_registry` parsed
from the same file — two separate objects.  `disk` is the file's contents
(`none` = missing), `backups` the names of the files in the backup
directory, `mgrCache` / `pmCache` the two caches. -/

structure SysState where
  disk : Option Registry
  backups : List String
  mgrCache : Option Registry
  pmCache : Option Registry
deriving DecidableEq

/-- Embeds `models.ProjectRegistry.load`: default registry when the file is
missing. -/
def registryLoad (disk : Option Registry) : Registry :=
  disk.getD defaultRegistry

/-- Embeds `models.ProjectRegistry.save`: write the whole aggregate; no backup. -/
def modelsSave (r : Registry) (s : SysState) : SysState :=
  { s with disk := some r }

/-- The port manager's lazy `registry` property. -/
def pmGet (s : SysState) : Registry × SysState :=
  match s.pmCache with
  | some r => (r, s)
  | none => (registryLoad s.disk, { s with pmCache := some (registryLoad s.disk) })

/-- The project-registry manager's lazy `registry` property. -/
def mgrGet (s : SysState) : Registry × SysState :=
  match s.mgrCache with
  | some r => (r, s)
  | none => (registryLoad s.disk, { s with mgrCache := some (registryLoad s.disk) })

/-- Outcome of a `PortManager.allocate_ports` call at system level. -/
inductive PMOutcome
  | ok (ports : PortsResult) (s : SysState)
  | err (s : SysState)
deriving DecidableEq

/-- State reached by a `PMOutcome`, whichever branch was taken. -/
def PMOutcome.state : PMOutcome → SysState
  | .ok _ s => s
  | .err s => s

/-- Embeds `PortManager.allocate_ports` at system level: on success `self.save()`
writes the PORT MANAGER's registry copy to disk (via `models.save`, with no
backup); on `PortExhaustedError` the rolled-back copy stays cached and the
disk is untouched. -/
def allocate_ports_sys (inUse : Nat → Bool) (project_name : String)
    (need_frontend need_backend : Bool) (s : SysState) : PMOutcome :=
  let (r, s1) := pmGet s
  match allocate_ports inUse r project_name need_frontend need_backend with
  | .ok (res, r') => .ok res (modelsSave r' { s1 with pmCache := some r' })
  | .error rb => .err { s1 with pmCache := some rb }

/-- Embeds `PortManager.release_ports` at system level: saves (no backup) only when
at least one port was freed. -/
def release_ports_sys (project_name : String) (s : SysState) : List Nat × SysState :=
  let (r, s1) := pmGet s
  let (freed, r') := release_ports r project_name
  let s2 := { s1 with pmCache := some r' }
  (freed, if freed.isEmpty then s2 else modelsSave r' s2)

/-- Backup file name `projects_<timestamp>.json`. -/
def backupName (ts : String) : String := "projects_" ++ ts ++ ".json"

/-- The backup directory contents after `shutil.copy2`: the copied file's
name joins the directory (a same-named file would be overwritten). -/
def withNew (nm : String) (backups : List String) : List String :=
  if backups.contains nm then backups else backups ++ [nm]

/-- The backup directory contents after the copy followed by the rotation
`for old in sorted(glob("projects_*.json"))[:-10]: old.unlink()`. -/
def rotate (nm : String) (backups : List String) : List String :=
  let ss := (withNew nm backups).insertionSort (· ≤ ·)
  ss.drop (ss.length - 10)

/-- Embeds `ProjectRegistry._create_backup`: no-op when the registry file does not
exist; otherwise copy it into the backup directory and rotate. -/
def create_backup (ts : String) (s : SysState) : SysState :=
  match s.disk with
  | none => s
  | some _ => { s with backups := rotate (backupName ts) s.backups }

/-- Embeds `ProjectRegistry.save`: refresh metadata on the MANAGER's cached copy,
back up the current on-disk file, then write that copy. -/
def mgr_save (modified_by now ts : String) (s : SysState) : SysState :=
  let (r, s1) := mgrGet s
  let r' := { r with metadata := { r.metadata with
    last_modified := now, last_modified_by := modified_by,
    total_projects := r.projects.length } }
  let s2 := create_backup ts { s1 with mgrCache := some r' }
  modelsSave r' s2

/-- Outcome of `ProjectRegistry.register_project`. -/
inductive RegOutcome
  | ok (p : Project) (s : SysState)
  | errExists (s : SysState)
  | errPath (s : SysState)
  | errExhausted (s : SysState)
  | errName (s : SysState)
deriving DecidableEq

/-- State reached by a `RegOutcome`, whichever branch was taken. -/
def RegOutcome.state : RegOutcome → SysState
  | .ok _ s => s
  | .errExists s => s
  | .errPath s => s
  | .errExhausted s => s
  | .errName s => s

/-- Python truthiness of an optional command string. -/
def truthy : Option String → Bool
  | some c => !(c == "")
  | none => false

/-- Embeds `list(set(default_tags + tags))`; CPython's set order is unspecified, so
first-occurrence order is chosen (no settled claim depends on tag order). -/
def dedupTags (l : List String) : List String := l.eraseDups

/-- Embeds `ProjectRegistry.register_project`.  `pathExists` / `pathIsDir` are the
filesystem oracles for `Path.exists` / `Path.is_dir`; `now` feeds every
timestamp, `ts` the backup name.  Faithful points: the duplicate-name and
path checks come first; ports are allocated (and PERSISTED by the port
manager's own save) before `Project.__post_init__` gets to validate the
name, so an invalid name aborts after that save with no rollback; the
`need_*` flags use `is not None` while the `ServiceConfig`s are built from
truthiness; the final `self.save` writes the MANAGER's cached copy, whose
allocation map never saw the port manager's allocation.  The `.env`
generation side effect touches only the project directory, not the registry
state modelled here.

The part of `register_project` after (and including) the `ServiceConfig`
construction, shared by the allocating and non-allocating paths: -/
def register_finish (r1 : Registry) (name path : String)
    (display_name description : Option String)
    (frontend_command backend_command : Option String)
    (frontend_cwd backend_cwd : Option String)
    (env_vars : List (String × String)) (tags : List String)
    (now ts : String) (ports : PortsResult) (s2 : SysState) : RegOutcome :=
  let frontend := if truthy frontend_command then
      some (ServiceConfig.mk true ports.frontend (frontend_command.getD "") frontend_cwd [] none)
    else none
  let backend := if truthy backend_command then
      some (ServiceConfig.mk true ports.backend (backend_command.getD "") backend_cwd [] none)
    else none
  let project_tags := dedupTags (r1.settings.default_tags ++ tags)
  if !(validName name) then .errName s2
  else
    let display := if truthy display_name then display_name else
      some (defaultDisplayName name)
    let project : Project :=
      ⟨name, path, display, description, frontend, backend,
       env_vars, [], project_tags, now, now, none⟩
    let r1' := { r1 with projects :=
      (if r1.projects.any (fun e => e.1 == name) then
        r1.projects.map (fun e => if e.1 == name then (name, project) else e)
      else r1.projects ++ [(name, project)]) }
    let s3 := { s2 with mgrCache := some r1' }
    .ok project (mgr_save "register_project" now ts s3)

def register_project (inUse : Nat → Bool) (pathExists pathIsDir : String → Bool)
    (name path : String) (display_name description : Option String)
    (frontend_command backend_command : Option String)
    (frontend_cwd backend_cwd : Option String)
    (env_vars : List (String × String)) (tags : List String)
    (auto_allocate_ports : Bool) (now ts : String) (s : SysState) : RegOutcome :=
  let (r1, s1) := mgrGet s
  if r1.projects.any (fun e => e.1 == name) then .errExists s1
  else if !(pathExists path) then .errPath s1
  else if !(pathIsDir path) then .errPath s1
  else
    let need_frontend := frontend_command.isSome
    let need_backend := backend_command.isSome
    if auto_allocate_ports && (need_frontend || need_backend) then
      match allocate_ports_sys inUse name need_frontend need_backend s1 with
      | .err s2 => .errExhausted s2
      | .ok ports s2 =>
          register_finish r1 name path display_name description
            frontend_command backend_command frontend_cwd backend_cwd
            env_vars tags now ts ports s2
    else
      register_finish r1 name path display_name description
        frontend_command backend_command frontend_cwd backend_cwd
        env_vars tags now ts ⟨none, none⟩ s1

/-! ## Derived notions used by the statements -/

/-- The entries a successful `allocate_ports` call adds to `allocated`: one
per granted port, keyed by `str(port)`, valued by the project name. -/
def grantedEntries (res : PortsResult) (project_name : String) : List (String × String) :=
  (match res.frontend with | some p => [(toString p, project_name)] | none => []) ++
  (match res.backend with | some p => [(toString p, project_name)] | none => [])

/-- Whether a `get_port_status` call returned its summary (vs. raising). -/
def isOkE (x : Except Unit PortStatusSummary) : Bool :=
  match x with
  | .ok _ => true
  | .error _ => false

/-- Whether registration raised the name-validation `ValueError`. -/
def RegOutcome.isErrName : RegOutcome → Bool
  | .errName _ => true
  | _ => false

/-- Whether registration returned a project. -/
def RegOutcome.isOk : RegOutcome → Bool
  | .ok _ _ => true
  | _ => false

/-- The backend port of a named project inside a (persisted) registry. -/
def persistedBackendPort (r : Registry) (n : String) : Option Nat :=
  match (r.projects.find? (fun e => e.1 == n)).map (·.2) with
  | some p => (match p.backend with | some b => b.port | none => none)
  | none => none

/-- The availability condition as the settled claim words it for a frontend
search — only THAT range's reserved set excludes a port.  This follows the
claim's text, not the code (`is_port_reserved` checks both reserved sets);
it exists to witness the difference. -/
def claimAvailableFrontend (inUse : Nat → Bool) (r : Registry) (p : Nat) : Bool :=
  !(r.port_allocation.frontend_range.reserved.contains p) &&
  !(hasKey (toString p) r.port_allocation.allocated) && !(inUse p)

/-! ## Concrete fixtures for witnesses and counterexamples -/

/-- Probe oracle: no port is externally occupied. -/
def f0 : Nat → Bool := fun _ => false

/-- Filesystem oracle: every path exists / is a directory. -/
def pathsOK : String → Bool := fun _ => true

/-- Small registry: three-slot ranges, nothing reserved, one unrelated
allocation entry. -/
def regW : Registry := { defaultRegistry with
  port_allocation := ⟨⟨3000, 3002, []⟩, ⟨8000, 8002, []⟩, [("7", "x")]⟩ }

/-- The registry after `allocate_ports` grants 3000 and 8000 to `"p"` on
`regW`. -/
def regWok : Registry := setAlloc regW [("7", "x"), ("3000", "p"), ("8000", "p")]

/-- Registry whose ranges' reserved sets differ: the backend range reserves
3000, which lies in the frontend range. -/
def regC5 : Registry := { defaultRegistry with
  port_allocation := ⟨⟨3000, 3001, []⟩, ⟨8000, 8001, [3000]⟩, []⟩ }

/-- Empty test registry mirroring the fixture of `tests/test_core.py`
(six-slot ranges, nothing reserved, no allocations). -/
def regT : Registry := { defaultRegistry with
  port_allocation := ⟨⟨3000, 3005, []⟩, ⟨8000, 8005, []⟩, []⟩,
  settings := { defaultSettings with auto_generate_env := false, default_tags := ["test"] } }

/-- System state: `regT` on disk, empty backup directory, cold caches. -/
def sT : SysState := ⟨some regT, [], none, none⟩

/-- A registered project used by the update-claim scenarios. -/
def projApp : Project :=
  ⟨"app", "/p", some "App", none, none, none, [], [], [], "t0", "t0", none⟩

/-- Registry holding `projApp` under its name. -/
def regV : Registry := { regT with projects := [("app", projApp)] }

/-- The register call of the C2 scenario: fresh name, valid path, backend
command only, auto allocation on. -/
def regC2run : RegOutcome :=
  register_project f0 pathsOK pathsOK "app" "/p" none none
    none (some "python main.py") none none [] [] true "t1" "20260101_000000" sT

/-- The register call of the C4 scenario: regex-invalid name `"My-App"`,
valid path, backend command, auto allocation on. -/
def regC4run : RegOutcome :=
  register_project f0 pathsOK pathsOK "My-App" "/p" none none
    none (some "python main.py") none none [] [] true "t1" "20260101_000000" sT

/-- System state with a registry file on disk and an older backup present. -/
def sW3 : SysState := ⟨some regT, ["projects_20250101_000000.json"], none, none⟩

/-- Registry in which project `"p"` ALREADY holds port 3000 before any call
(the C6 scenario). -/
def regC6 : Registry := { defaultRegistry with
  port_allocation := ⟨⟨3000, 3002, []⟩, ⟨8000, 8002, []⟩, [("3000", "p")]⟩ }

/-- The allocation map after `allocate_ports("p", frontend only)` followed by
`release_ports("p")` starting from `regC6`. -/
def regC6after : List (String × String) :=
  match allocate_ports f0 regC6 "p" true false with
  | .ok (_, r') => (release_ports r' "p").2.port_allocation.allocated
  | .error rb => rb.port_allocation.allocated

/-- Name field of the project returned by updating `"app"` in `regV` with a
patch containing the key `"name"`. -/
def updC8name : Option String :=
  match update_project regV "app" [PatchField.name "other"] "t2" with
  | .ok (p', _) => some p'.name
  | .error _ => none

/-- Key list of the projects map after that same update. -/
def updC8keys : Option (List String) :=
  match update_project regV "app" [PatchField.name "other"] "t2" with
  | .ok (_, r') => some (r'.projects.map (·.1))
  | .error _ => none

/-! ## General lemmas about the dict embedding and the scan loop -/

theorem containsList_nil (l : List Char) : containsList [] l = true := by
  cases l <;> simp [containsList, isPrefixB]

theorem hasKey_append (k : String) (d1 d2 : List (String × String)) :
    hasKey k (d1 ++ d2) = (hasKey k d1 || hasKey k d2) := by
  simp [hasKey, List.any_append]

theorem hasKey_false_forall {k : String} {d : List (String × String)}
    (h : hasKey k d = false) : ∀ e ∈ d, (e.1 == k) = false := by
  intro e he
  have := List.any_eq_false.mp h e he
  simpa using this

theorem dinsert_of_not_hasKey {k : String} {d : List (String × String)}
    (v : String) (h : hasKey k d = false) : dinsert k v d = d ++ [(k, v)] := by
  simp [dinsert, h]

theorem dpop_append_of_not_hasKey {k : String} {d : List (String × String)}
    (v : String) (h : hasKey k d = false) : dpop k (d ++ [(k, v)]) = d := by
  unfold dpop
  rw [List.filter_append]
  have h1 : d.filter (fun e => !(e.1 == k)) = d := by
    apply List.filter_eq_self.mpr
    intro e he
    simp [hasKey_false_forall h e he]
  have h2 : [((k, v) : String × String)].filter (fun e => !(e.1 == k)) = [] := by
    simp
  rw [h1, h2, List.append_nil]

theorem find?_range'_some {f : Nat → Bool} {s n p : Nat}
    (h : (List.range' s n).find? f = some p) :
    s ≤ p ∧ p < s + n ∧ f p = true ∧ ∀ q, s ≤ q → q < p → f q = false := by
  induction n generalizing s with
  | zero => simp [List.range'] at h
  | succ n ih =>
      rw [List.range'_succ s n 1] at h
      by_cases hfs : f s = true
      · have hps : p = s := by simp [List.find?, hfs] at h; omega
        subst hps
        exact ⟨Nat.le_refl _, by omega, hfs, fun q h1 h2 => absurd (Nat.lt_of_le_of_lt h1 h2) (by omega)⟩
      · have hfs' : f s = false := by simpa using hfs
        rw [show (s :: List.range' (s+1) n).find? f = (List.range' (s+1) n).find? f by
          simp [List.find?, hfs']] at h
        obtain ⟨h1, h2, h3, h4⟩ := ih h
        refine ⟨by omega, by omega, h3, ?_⟩
        intro q hq1 hq2
        by_cases hqs : q = s
        · subst hqs; exact hfs'
        · exact h4 q (by omega) hq2

theorem find?_range'_none {f : Nat → Bool} {s n : Nat} :
    (List.range' s n).find? f = none ↔ ∀ q, s ≤ q → q < s + n → f q = false := by
  rw [List.find?_eq_none]
  constructor
  · intro h q h1 h2
    have := h q (List.mem_range'_1.mpr ⟨h1, h2⟩)
    simpa using this
  · intro h x hx
    obtain ⟨h1, h2⟩ := List.mem_range'_1.mp hx
    simp [h x h1 h2]

/-! ## Structure of `allocate_ports` -/

theorem portOK_split {inUse : Nat → Bool} {r : Registry} {ex : List Nat} {p : Nat}
    (h : portOK inUse r ex p = true) :
    ex.contains p = false ∧ is_port_reserved r p = false ∧
    hasKey (toString p) r.port_allocation.allocated = false ∧ inUse p = false := by
  simp only [portOK, Bool.and_eq_true, Bool.not_eq_true'] at h
  exact ⟨h.1.1.1, h.1.1.2, h.1.2, h.2⟩

theorem find_available_port_not_hasKey {inUse : Nat → Bool} {r : Registry}
    {a b p : Nat} {ex : List Nat}
    (h : find_available_port inUse r a b ex = some p) :
    hasKey (toString p) r.port_allocation.allocated = false :=
  (portOK_split (List.find?_some h)).2.2.1

theorem allocate_error_allocated {inUse : Nat → Bool} {r : Registry}
    {pn : String} {nf nb : Bool} {rb : Registry}
    (h : allocate_ports inUse r pn nf nb = .error rb) :
    rb.port_allocation.allocated = r.port_allocation.allocated := by
  cases nf <;> cases nb <;> simp only [allocate_ports, if_true, if_false, Bool.false_eq_true] at h
  · simp at h
  · cases hbe : find_available_backend_port inUse r with
    | none => simp [hbe] at h; rw [← h]
    | some be => simp [hbe] at h
  · cases hfe : find_available_frontend_port inUse r with
    | none => simp [hfe] at h; rw [← h]
    | some fe => simp [hfe] at h
  · cases hfe : find_available_frontend_port inUse r with
    | none => simp [hfe] at h; rw [← h]
    | some fe =>
        have hk : hasKey (toString fe) r.port_allocation.allocated = false :=
          find_available_port_not_hasKey hfe
        cases hbe : find_available_backend_port inUse
            (setAlloc r (dinsert (toString fe) pn r.port_allocation.allocated)) with
        | none =>
            simp [hfe, hbe] at h
            rw [← h]
            simp only [setAlloc]
            rw [dinsert_of_not_hasKey pn hk, dpop_append_of_not_hasKey pn hk]
        | some be => simp [hfe, hbe] at h

theorem allocate_ok_allocated {inUse : Nat → Bool} {r : Registry}
    {pn : String} {nf nb : Bool} {res : PortsResult} {r' : Registry}
    (h : allocate_ports inUse r pn nf nb = .ok (res, r')) :
    r'.port_allocation.allocated
      = r.port_allocation.allocated ++ grantedEntries res pn ∧
    (∀ e ∈ grantedEntries res pn, hasKey e.1 r.port_allocation.allocated = false) ∧
    res.frontend.isSome = nf ∧ res.backend.isSome = nb := by
  cases nf <;> cases nb <;> simp only [allocate_ports, if_true, if_false, Bool.false_eq_true] at h
  · simp at h
    obtain ⟨hres, hr'⟩ := h
    subst hres; subst hr'
    simp [grantedEntries]
  · cases hbe : find_available_backend_port inUse r with
    | none => simp [hbe] at h
    | some be =>
        have hk : hasKey (toString be) r.port_allocation.allocated = false :=
          find_available_port_not_hasKey hbe
        simp [hbe] at h
        obtain ⟨hres, hr'⟩ := h
        subst hres; subst hr'
        refine ⟨?_, ?_, rfl, rfl⟩
        · simp [grantedEntries, setAlloc, dinsert_of_not_hasKey pn hk]
        · intro e he
          simp [grantedEntries] at he
          subst he; exact hk
  · cases hfe : find_available_frontend_port inUse r with
    | none => simp [hfe] at h
    | some fe =>
        have hk : hasKey (toString fe) r.port_allocation.allocated = false :=
          find_available_port_not_hasKey hfe
        simp [hfe] at h
        obtain ⟨hres, hr'⟩ := h
        subst hres; subst hr'
        refine ⟨?_, ?_, rfl, rfl⟩
        · simp [grantedEntries, setAlloc, dinsert_of_not_hasKey pn hk]
        · intro e he
          simp [grantedEntries] at he
          subst he; exact hk
  · cases hfe : find_available_frontend_port inUse r with
    | none => simp [hfe] at h
    | some fe =>
        have hkf : hasKey (toString fe) r.port_allocation.allocated = false :=
          find_available_port_not_hasKey hfe
        cases hbe : find_available_backend_port inUse
            (setAlloc r (dinsert (toString fe) pn r.port_allocation.allocated)) with
        | none => simp [hfe, hbe] at h
        | some be =>
            have hkb : hasKey (toString be)
                (r.port_allocation.allocated ++ [(toString fe, pn)]) = false := by
              have := find_available_port_not_hasKey hbe
              rwa [show (setAlloc r (dinsert (toString fe) pn
                  r.port_allocation.allocated)).port_allocation.allocated
                = r.port_allocation.allocated ++ [(toString fe, pn)] by
                simp [setAlloc, dinsert_of_not_hasKey pn hkf]] at this
            have hkb2 : hasKey (toString be) r.port_allocation.allocated = false := by
              have := hasKey_append (toString be) r.port_allocation.allocated [(toString fe, pn)]
              rw [hkb] at this
              exact (Bool.or_eq_false_iff.mp this.symm).1
            simp [hfe, hbe] at h
            obtain ⟨hres, hr'⟩ := h
            subst hres; subst hr'
            refine ⟨?_, ?_, rfl, rfl⟩
            · have h1 : (setAlloc r (dinsert (toString fe) pn
                  r.port_allocation.allocated)).port_allocation.allocated
                  = r.port_allocation.allocated ++ [(toString fe, pn)] := by
                simp [setAlloc, dinsert_of_not_hasKey pn hkf]
              simp only [setAlloc, h1, grantedEntries]
              rw [dinsert_of_not_hasKey pn hkf, dinsert_of_not_hasKey pn hkb,
                List.append_assoc]
            · intro e he
              simp [grantedEntries] at he
              rcases he with he | he
              · subst he; exact hkf
              · subst he; exact hkb2

/-! ## Claim theorems -/

/-- C1: every `allocate_ports(project_name, need_frontend, need_backend)`
call is all-or-nothing on the allocation map: if it raises, the map is
exactly the pre-call map; if it returns, the map is the pre-call map plus
exactly one fresh entry `str(port) ↦ project_name` per requested (and hence
granted) port, with no other entry added, removed or changed. -/
theorem allocate_ports_all_or_nothing (inUse : Nat → Bool) (r : Registry)
    (project_name : String) (need_frontend need_backend : Bool) :
    (∀ rb, allocate_ports inUse r project_name need_frontend need_backend = .error rb →
      rb.port_allocation.allocated = r.port_allocation.allocated) ∧
    (∀ res r',
      allocate_ports inUse r project_name need_frontend need_backend = .ok (res, r') →
      r'.port_allocation.allocated
        = r.port_allocation.allocated ++ grantedEntries res project_name ∧
      (∀ e ∈ grantedEntries res project_name,
        hasKey e.1 r.port_allocation.allocated = false) ∧
      res.frontend.isSome = need_frontend ∧ res.backend.isSome = need_backend) :=
  ⟨fun _ h => allocate_error_allocated h, fun _ _ h => allocate_ok_allocated h⟩

/-- Witness for C1: allocating both services for `"p"` on `regW` appends
exactly the entries for ports 3000 and 8000. -/
theorem allocate_ports_all_or_nothing_witness :
    regWok.port_allocation.allocated
      = regW.port_allocation.allocated ++ grantedEntries ⟨some 3000, some 8000⟩ "p" :=
  ((allocate_ports_all_or_nothing f0 regW "p" true true).2
    ⟨some 3000, some 8000⟩ regWok (by rfl)).1

/-- C5 (amended): `find_available_port` returns the numerically smallest port
of `[start, end]` that is not excluded, not in the UNION of the two ranges'
reserved sets (`is_port_reserved` checks both, not just the searched
range's), not a key of `allocated`, and not live per the TCP probe; it
returns `none` exactly when no port of the range passes all checks. -/
theorem find_available_port_spec (inUse : Nat → Bool) (r : Registry) (start stop : Nat) :
    (∀ p, find_available_port inUse r start stop [] = some p →
      start ≤ p ∧ p ≤ stop ∧ portOK inUse r [] p = true ∧
      ∀ q, start ≤ q → q < p → portOK inUse r [] q = false) ∧
    (find_available_port inUse r start stop [] = none ↔
      ∀ p, start ≤ p → p ≤ stop → portOK inUse r [] p = false) := by
  constructor
  · intro p h
    obtain ⟨h1, h2, h3, h4⟩ := find?_range'_some h
    exact ⟨h1, by omega, h3, h4⟩
  · rw [find_available_port, find?_range'_none]
    constructor
    · intro h p h1 h2; exact h p h1 (by omega)
    · intro h q h1 h2; exact h q h1 (by omega)

/-- Witness for C5 (amended): on `regW` the frontend search returns 3000,
which indeed passes the loop's availability check. -/
theorem find_available_port_spec_witness : portOK f0 regW [] 3000 = true :=
  ((find_available_port_spec f0 regW 3000 3002).1 3000 (by rfl)).2.2.1

/-- Counterexample to C5 as stated: on `regC5` the backend range reserves
3000, which lies inside the frontend range `[3000, 3001]` and is NOT in the
frontend range's own reserved set; the claim's conditions make 3000 the
smallest available port, yet the scan skips it (the code checks both
reserved sets) and returns 3001. -/
theorem find_available_port_cex :
    find_available_frontend_port f0 regC5 = some 3001 ∧
    claimAvailableFrontend f0 regC5 3000 = true ∧
    regC5.port_allocation.frontend_range.start = 3000 ∧ 3000 < 3001 := by
  refine ⟨by rfl, by rfl, by rfl, by omega⟩

/-- C7: the per-project overall status is `overall_status` of the present
enabled services' statuses, and it satisfies the aggregation table: empty →
`"stopped"`; all `"online"` → `"running"`; all in
{`"stopped"`, `"not_started"`} → `"stopped"`; any `"errored"` → `"error"`;
every remaining (mixed) case → `"partial"`. -/
theorem overall_status_table (statuses : List String) :
    (statuses = [] → overall_status statuses = "stopped") ∧
    (statuses ≠ [] → (∀ s ∈ statuses, s = "online") →
      overall_status statuses = "running") ∧
    (statuses ≠ [] → (∀ s ∈ statuses, s = "stopped" ∨ s = "not_started") →
      overall_status statuses = "stopped") ∧
    ((∃ s ∈ statuses, s = "errored") → overall_status statuses = "error") ∧
    (statuses ≠ [] → ¬(∀ s ∈ statuses, s = "online") →
      ¬(∀ s ∈ statuses, s = "stopped" ∨ s = "not_started") →
      (∀ s ∈ statuses, s ≠ "errored") → overall_status statuses = "partial") := by
  refine ⟨?_, ?_, ?_, ?_, ?_⟩
  · intro h; subst h; rfl
  · intro hne hall
    have h1 : statuses.isEmpty = false := by simpa [List.isEmpty_iff] using hne
    have h2 : statuses.all (fun s => s == "online") = true := by
      rw [List.all_eq_true]; intro s hs; simpa using hall s hs
    simp [overall_status, h1, h2]
  · intro hne hall
    obtain ⟨s0, hs0⟩ := List.exists_mem_of_ne_nil statuses hne
    have h1 : statuses.isEmpty = false := by simpa [List.isEmpty_iff] using hne
    have h2 : statuses.all (fun s => s == "online") = false := by
      rw [Bool.eq_false_iff]
      intro hX
      have := List.all_eq_true.mp hX s0 hs0
      rcases hall s0 hs0 with h | h <;> subst h <;> simp at this
    have h3 : statuses.all (fun s => s == "stopped" || s == "not_started") = true := by
      rw [List.all_eq_true]; intro s hs
      rcases hall s hs with h | h <;> subst h <;> simp
    simp [overall_status, h1, h2, h3]
  · intro hex
    obtain ⟨s0, hs0, herr⟩ := hex
    subst herr
    have h1 : statuses.isEmpty = false := by
      rw [List.isEmpty_eq_false_iff_exists_mem]; exact ⟨_, hs0⟩
    have h2 : statuses.all (fun s => s == "online") = false := by
      rw [Bool.eq_false_iff]
      intro hX
      have := List.all_eq_true.mp hX _ hs0
      simp at this
    have h3 : statuses.all (fun s => s == "stopped" || s == "not_started") = false := by
      rw [Bool.eq_false_iff]
      intro hX
      have := List.all_eq_true.mp hX _ hs0
      simp at this
    have h4 : statuses.any (fun s => s == "errored") = true :=
      List.any_eq_true.mpr ⟨_, hs0, by simp⟩
    simp [overall_status, h1, h2, h3, h4]
  · intro hne hno hns hnerr
    have h1 : statuses.isEmpty = false := by simpa [List.isEmpty_iff] using hne
    have h2 : statuses.all (fun s => s == "online") = false := by
      rw [Bool.eq_false_iff]
      intro hX
      exact hno (fun s hs => by simpa using List.all_eq_true.mp hX s hs)
    have h3 : statuses.all (fun s => s == "stopped" || s == "not_started") = false := by
      rw [Bool.eq_false_iff]
      intro hX
      refine hns (fun s hs => ?_)
      have := List.all_eq_true.mp hX s hs
      simpa using this
    have h4 : statuses.any (fun s => s == "errored") = false := by
      rw [List.any_eq_false]
      intro s hs
      simpa using hnerr s hs
    simp [overall_status, h1, h2, h3, h4]

/-- Witness for C7: one service `"online"`, the other `"not_started"`,
aggregates to `"partial"`. -/
theorem overall_status_table_witness :
    overall_status ["online", "not_started"] = "partial" :=
  (overall_status_table ["online", "not_started"]).2.2.2.2
    (by decide) (by decide) (by decide) (by decide)

/-- C10: `search_projects` with the empty query returns every registered
project (the empty string is a substring of every lowercased name, so each
project already matches the first, name, check). -/
theorem search_projects_empty_query (r : Registry) :
    search_projects r "" = r.projects.map (·.2) := by
  unfold search_projects
  apply List.filter_eq_self.mpr
  intro p hp
  have h0 : containsSub (strLower "") (strLower p.name) = true := by
    have hd : (strLower "").data = [] := rfl
    simp only [containsSub, hd, containsList_nil]
  simp [projectMatches, h0]

/-! ## Release after allocate (C6) -/

theorem foldl_dpop_eq_filter (ks : List String) (d : List (String × String)) :
    ks.foldl (fun acc k => dpop k acc) d
      = d.filter (fun e => !(ks.contains e.1)) := by
  induction ks generalizing d with
  | nil => simp
  | cons k ks ih =>
      simp only [List.foldl_cons]
      rw [ih (dpop k d)]
      unfold dpop
      rw [List.filter_filter]
      apply List.filter_congr
      intro e he
      by_cases hek : e.1 = k
      · subst hek; simp
      · simp [List.contains_cons, hek, Ne.symm hek]

theorem grantedEntries_values (res : PortsResult) (pn : String) :
    ∀ e ∈ grantedEntries res pn, e.2 = pn := by
  intro e he
  rcases res with ⟨fe, be⟩
  cases fe <;> cases be <;> simp [grantedEntries] at he <;>
    first
    | (subst he; rfl)
    | (rcases he with he | he <;> subst he <;> rfl)

/-- C6 (amended): when no entry of the allocation map already names the
project, a successful `allocate_ports` followed by `release_ports` for the
same project name restores the map exactly.  (Without that proviso, release
also strips the project's pre-existing ports — see the counterexample.) -/
theorem allocate_then_release_roundtrip (inUse : Nat → Bool) (r : Registry)
    (project_name : String) (need_frontend need_backend : Bool)
    (res : PortsResult) (r' : Registry)
    (hpre : ∀ e ∈ r.port_allocation.allocated, e.2 ≠ project_name)
    (h : allocate_ports inUse r project_name need_frontend need_backend = .ok (res, r')) :
    (release_ports r' project_name).2.port_allocation.allocated
      = r.port_allocation.allocated := by
  obtain ⟨halloc, hfresh, _, _⟩ := allocate_ok_allocated h
  have hvals := grantedEntries_values res project_name
  simp only [release_ports, setAlloc]
  rw [halloc]
  have hfilter : (r.port_allocation.allocated
        ++ grantedEntries res project_name).filter (fun e => e.2 == project_name)
      = grantedEntries res project_name := by
    rw [List.filter_append]
    have h1 : r.port_allocation.allocated.filter (fun e => e.2 == project_name) = [] := by
      rw [List.filter_eq_nil_iff]
      intro e he
      simp [hpre e he]
    have h2 : (grantedEntries res project_name).filter
        (fun e => e.2 == project_name) = grantedEntries res project_name := by
      rw [List.filter_eq_self]
      intro e he
      simp [hvals e he]
    rw [h1, h2, List.nil_append]
  rw [hfilter, foldl_dpop_eq_filter, List.filter_append]
  have hold : r.port_allocation.allocated.filter
      (fun e => !(((grantedEntries res project_name).map (·.1)).contains e.1))
      = r.port_allocation.allocated := by
    rw [List.filter_eq_self]
    intro e he
    rw [Bool.not_eq_eq_eq_not, Bool.not_true, ← Bool.not_eq_true]
    intro hcon
    have hmem : e.1 ∈ (grantedEntries res project_name).map (·.1) := by
      simpa using hcon
    obtain ⟨g, hg, hg1⟩ := List.mem_map.mp hmem
    have := hasKey_false_forall (hfresh g hg) e he
    rw [hg1] at this
    simp at this
  have hnew : (grantedEntries res project_name).filter
      (fun e => !(((grantedEntries res project_name).map (·.1)).contains e.1)) = [] := by
    rw [List.filter_eq_nil_iff]
    intro e he
    have hmem : e.1 ∈ (grantedEntries res project_name).map (·.1) :=
      List.mem_map.mpr ⟨e, he, rfl⟩
    simp [hmem]
  rw [hold, hnew, List.append_nil]

/-- Witness for C6 (amended): allocating 3000 and 8000 to `"p"` on `regW`
(which has no entry for `"p"`) and releasing `"p"` restores the map. -/
theorem allocate_then_release_roundtrip_witness :
    (release_ports regWok "p").2.port_allocation.allocated
      = regW.port_allocation.allocated :=
  allocate_then_release_roundtrip f0 regW "p" true true
    ⟨some 3000, some 8000⟩ regWok (by decide) (by rfl)

/-- Counterexample to C6 as stated: on `regC6` the project `"p"` already
holds port 3000; after allocating a frontend port for `"p"` and releasing
`"p"`, the map is empty rather than restored to its pre-allocation value
`{"3000": "p"}` (release strips every entry valued `"p"`). -/
theorem allocate_then_release_cex :
    regC6after = [] ∧ regC6.port_allocation.allocated = [("3000", "p")] ∧
    regC6after ≠ regC6.port_allocation.allocated :=
  ⟨rfl, rfl, by decide⟩

/-! ## Update and the name field (C8) -/

theorem foldl_applyPatch_name (updates : List PatchField) (p : Project)
    (h : ∀ v, PatchField.name v ∉ updates) :
    (updates.foldl applyPatch p).name = p.name := by
  induction updates generalizing p with
  | nil => rfl
  | cons u us ih =>
      simp only [List.foldl_cons]
      rw [ih _ (fun v hv => h v (List.mem_cons_of_mem u hv))]
      cases u with
      | name v => exact absurd (List.mem_cons_self _ _) (h v)
      | display_name v => rfl
      | description v => rfl
      | notes v => rfl
      | tags v => rfl
      | env_vars v => rfl
      | path v => rfl
      | unknownKey k => rfl

/-- C8 (amended): `update_project` never changes the key under which the
project is stored (the key list of the projects map is untouched), and the
`name` FIELD is preserved by every patch that does not assign the `"name"`
key; a patch containing `"name"` does overwrite the field (`hasattr` holds
for `name`), desynchronising it from the storage key — see the
counterexample. -/
theorem update_project_key_immutable (r : Registry) (name : String)
    (updates : List PatchField) (now : String) (p' : Project) (r' : Registry)
    (h : update_project r name updates now = .ok (p', r')) :
    r'.projects.map (·.1) = r.projects.map (·.1) ∧
    ∀ p0, (r.projects.find? (fun e => e.1 == name)).map (·.2) = some p0 →
      (∀ v, PatchField.name v ∉ updates) → p'.name = p0.name := by
  unfold update_project at h
  cases hf : (r.projects.find? (fun e => e.1 == name)).map (·.2) with
  | none => rw [hf] at h; simp at h
  | some p =>
      rw [hf] at h
      simp only [Except.ok.injEq, Prod.mk.injEq] at h
      obtain ⟨hp', hr'⟩ := h
      constructor
      · obtain ⟨e, hef, hep⟩ := Option.map_eq_some'.mp hf
        have hpe := List.find?_some hef
        have hany : r.projects.any (fun e => e.1 == name) = true :=
          List.any_eq_true.mpr ⟨e, List.mem_of_find?_eq_some hef, by simpa using hpe⟩
        rw [← hr']
        simp only [hany, if_true]
        rw [List.map_map]
        apply List.map_congr_left
        intro a ha
        by_cases hk : a.1 = name
        · simp [hk]
        · simp [hk]
      · intro p0 hp0 hnone
        injection hp0 with hp0
        subst hp0
        rw [← hp']
        exact foldl_applyPatch_name updates p hnone

/-- Witness for C8 (amended): patching only `description` on `"app"` keeps
both the storage key and the name field. -/
theorem update_project_key_immutable_witness :
    (match update_project regV "app" [PatchField.description (some "x")] "t2" with
      | .ok (_, r') => r'.projects.map (·.1)
      | .error _ => []) = regV.projects.map (·.1) := by
  have h := update_project_key_immutable regV "app"
    [PatchField.description (some "x")] "t2"
    { projApp with description := some "x", updated_at := "t2" }
    { regV with projects :=
        [("app", { projApp with description := some "x", updated_at := "t2" })] }
    (by rfl)
  exact h.1

/-- Counterexample to C8 as stated: updating `"app"` with the patch
`{"name": "other"}` changes the project's `name` field to `"other"` while it
stays stored under the key `"app"`. -/
theorem update_project_cex :
    updC8name = some "other" ∧ updC8keys = some ["app"] ∧ projApp.name = "app" :=
  ⟨rfl, rfl, rfl⟩

/-! ## `get_port_status` totality (C9) -/

theorem portEntriesParsed_isSome (d : List (String × String))
    (h : ∀ e ∈ d, (decParse? e.1).isSome = true) :
    ∃ l, portEntriesParsed d = some l := by
  induction d with
  | nil => exact ⟨[], rfl⟩
  | cons e d ih =>
      obtain ⟨l, hl⟩ := ih (fun x hx => h x (List.mem_cons_of_mem e hx))
      obtain ⟨n, hn⟩ := Option.isSome_iff_exists.mp (h e (List.mem_cons_self e d))
      exact ⟨(n, e.2) :: l, by simp [portEntriesParsed, hn, hl]⟩

/-- C9: assuming the data-model invariant that allocation keys are decimal
numerals, `get_port_status` returns its summary whenever each range's
reserved count is strictly below the range size (so both usable-slot totals
are positive), and it raises (`ZeroDivisionError` in the utilization
computation) whenever either usable-slot total is zero. -/
theorem get_port_status_total_iff (inUse : Nat → Bool) (r : Registry)
    (hk : ∀ e ∈ r.port_allocation.allocated, (decParse? e.1).isSome = true) :
    ((r.port_allocation.frontend_range.reserved.length : Int)
        < (r.port_allocation.frontend_range.stop : Int)
          - (r.port_allocation.frontend_range.start : Int) + 1 →
      (r.port_allocation.backend_range.reserved.length : Int)
        < (r.port_allocation.backend_range.stop : Int)
          - (r.port_allocation.backend_range.start : Int) + 1 →
      isOkE (get_port_status inUse r) = true) ∧
    (rangeTotal r.port_allocation.frontend_range = 0 ∨
      rangeTotal r.port_allocation.backend_range = 0 →
      isOkE (get_port_status inUse r) = false) := by
  obtain ⟨l, hl⟩ := portEntriesParsed_isSome _ hk
  constructor
  · intro hf hb
    have hnz : ¬(rangeTotal r.port_allocation.frontend_range = 0 ∨
        rangeTotal r.port_allocation.backend_range = 0) := by
      unfold rangeTotal
      omega
    simp only [get_port_status, hl]
    rw [if_neg hnz]
    rfl
  · intro hz
    simp only [get_port_status, hl]
    rw [if_pos hz]
    rfl

/-- Witness for C9: `regW` has numeral keys and zero reserved ports in its
three-slot ranges, so the summary is produced. -/
theorem get_port_status_total_iff_witness : isOkE (get_port_status f0 regW) = true :=
  (get_port_status_total_iff f0 regW (by decide)).1 (by decide) (by decide)

/-! ## Backup rotation (C3) -/

theorem rotate_length_le (nm : String) (bs : List String) :
    (rotate nm bs).length ≤ 10 := by
  unfold rotate
  rw [List.length_drop]
  omega

theorem rotate_keeps_greatest (nm : String) (bs : List String) :
    ∀ x ∈ withNew nm bs, x ∉ rotate nm bs → ∀ y ∈ rotate nm bs, x ≤ y := by
  intro x hx hxn y hy
  unfold rotate at hxn hy
  set ss := (withNew nm bs).insertionSort (· ≤ ·) with hss
  have hsorted : List.Sorted (· ≤ ·) ss := List.sorted_insertionSort _ _
  have hxss : x ∈ ss := ((List.perm_insertionSort _ _).mem_iff).mpr hx
  have hxtake : x ∈ ss.take (ss.length - 10) := by
    have hsplit : x ∈ ss.take (ss.length - 10) ++ ss.drop (ss.length - 10) := by
      rw [List.take_append_drop]; exact hxss
    rcases List.mem_append.mp hsplit with h | h
    · exact h
    · exact absurd h hxn
  have hpw := hsorted
  rw [← List.take_append_drop (ss.length - 10) ss] at hpw
  exact (List.pairwise_append.mp hpw).2.2 x hxtake y hy

/-- C3 (amended): a save that goes through `ProjectRegistry.save`
(registration, update, removal) backs up the existing on-disk file under the
timestamped name and afterwards at most the 10 lexicographically greatest
backup files remain, every dropped one being ≤ all kept ones.  Saves issued
by `PortManager.save` (port allocation, port release) bypass
`_create_backup` entirely — see the counterexample. -/
theorem mgr_save_backup (s : SysState) (modified_by now ts : String)
    (hdisk : s.disk.isSome = true) :
    (mgr_save modified_by now ts s).backups = rotate (backupName ts) s.backups ∧
    (mgr_save modified_by now ts s).backups.length ≤ 10 ∧
    backupName ts ∈ withNew (backupName ts) s.backups ∧
    (∀ x ∈ withNew (backupName ts) s.backups,
      x ∉ (mgr_save modified_by now ts s).backups →
      ∀ y ∈ (mgr_save modified_by now ts s).backups, x ≤ y) := by
  obtain ⟨r, hr⟩ := Option.isSome_iff_exists.mp hdisk
  have hb : (mgr_save modified_by now ts s).backups
      = rotate (backupName ts) s.backups := by
    unfold mgr_save mgrGet create_backup modelsSave
    cases hc : s.mgrCache <;> simp [hr]
  refine ⟨hb, ?_, ?_, ?_⟩
  · rw [hb]; exact rotate_length_le _ _
  · unfold withNew
    by_cases h : s.backups.contains (backupName ts)
    · rw [if_pos h]; simpa using h
    · rw [if_neg h]; exact List.mem_append_right _ (List.mem_singleton.mpr rfl)
  · intro x hx hxn y hy
    rw [hb] at hxn hy
    exact rotate_keeps_greatest _ _ x hx hxn y hy

/-- Witness for C3 (amended): saving over `sW3` (file present, one old
backup) rotates the backup directory and keeps it within 10 entries. -/
theorem mgr_save_backup_witness :
    (mgr_save "m" "n" "20260101_000000" sW3).backups
      = rotate (backupName "20260101_000000") sW3.backups ∧
    (mgr_save "m" "n" "20260101_000000" sW3).backups.length ≤ 10 :=
  ⟨(mgr_save_backup sW3 "m" "n" "20260101_000000" (by rfl)).1,
   (mgr_save_backup sW3 "m" "n" "20260101_000000" (by rfl)).2.1⟩

/-- Counterexample to C3 as stated: a port-allocation save
(`PortManager.save`, reached from `allocate_ports`) rewrites the registry
file while a previous file and an old backup exist, yet places no copy in
the backup directory (it is unchanged). -/
theorem port_save_no_backup_cex :
    (allocate_ports_sys f0 "p" true false sW3).state.backups = sW3.backups ∧
    sW3.backups = ["projects_20250101_000000.json"] ∧
    sW3.disk.isSome = true ∧
    (allocate_ports_sys f0 "p" true false sW3).state.disk ≠ sW3.disk :=
  ⟨rfl, rfl, rfl, by decide⟩

/-! ## Registration persistence (C2) and the invalid-name leak (C4) -/

/-- C2 (code bug): after the successful registration `regC2run` (fresh name
`"app"`, backend command, auto allocation on), the persisted registry file
holds the project with its granted backend port 8000, but its allocation
map is EMPTY — the manager's save wrote its own stale cached copy over the
allocation the port manager had just persisted, so reloading the file does
not show `"8000" ↦ "app"`. -/
theorem register_project_lost_allocation :
    regC2run.isOk = true ∧
    persistedBackendPort (registryLoad regC2run.state.disk) "app" = some 8000 ∧
    (registryLoad regC2run.state.disk).port_allocation.allocated = [] :=
  ⟨rfl, rfl, rfl⟩

/-- C4 (code bug): the registration `regC4run` with the regex-invalid name
`"My-App"` raises the name `ValueError` only AFTER `allocate_ports` has
allocated and persisted port 8000, and no rollback follows: the persisted
allocation map has gained `"8000" ↦ "My-App"` although the call failed with
a validation error (it was empty before the call). -/
theorem register_invalid_name_leaves_trace :
    regC4run.isErrName = true ∧
    (registryLoad regC4run.state.disk).port_allocation.allocated
      = [("8000", "My-App")] ∧
    (registryLoad sT.disk).port_allocation.allocated = [] :=
  ⟨rfl, rfl, rfl⟩

end DevOrch
